import Mathlib

/-!
Shallow embedding of the authorization and invitation-onboarding core of the
Nexaro CRM server (src/server/auth.ts, src/server/routes.ts,
src/server/storage.ts, src/server/controllers/invite.controller.ts,
src/shared/schema.ts).

JavaScript strings are modelled as Lean String (for record fields) and as
List Char where character-level reasoning is needed (the credential store).
Timestamps are Int milliseconds since the epoch, so that the JavaScript
comparison of Date objects becomes integer comparison.  Database stores are
lists of rows; the drizzle eq operator on a text column is exact string
equality.  Fallible effects (storage.createUser throwing, the email sender
failing) are explicit boolean or option parameters.
-/

namespace NexaroCrm

/-- The user_role enum from src/shared/schema.ts. -/
inductive Role where
  | founder
  | admin
  | staff
deriving DecidableEq

/-- A row of the users table (src/shared/schema.ts lines 27-35); the
createdAt presentation column is elided. -/
structure User where
  id : Nat
  name : String
  email : String
  passwordHash : String
  role : Role
  organizationId : Option Nat
deriving DecidableEq

/-- A row of the invitations table (fields as read and written by
storage.ts invitation operations and the handlers in auth.ts, routes.ts and
invite.controller.ts).  expiresAt is nullable: the redeem handler guards it
with a truthiness check before comparing. -/
structure Invitation where
  id : Nat
  email : String
  inviteToken : String
  organizationId : Nat
  role : Option Role
  isUsed : Bool
  expiresAt : Option Int
deriving DecidableEq

/-- A row of the clients table (src/shared/schema.ts lines 45-56); nullable
presentation columns (phone, company, address, notes) and createdAt are
elided, keeping the fields the GET handler logic consults. -/
structure Client where
  id : Nat
  name : String
  email : String
  isActive : Bool
  organizationId : Nat
deriving DecidableEq

/-- ASCII model of the JavaScript String.prototype.toLowerCase used at
src/server/auth.ts line 176. -/
def asciiLowerChar (c : Char) : Char :=
  if 'A' ≤ c ∧ c ≤ 'Z' then Char.ofNat (c.toNat + 32) else c

/-- Lowercasing of a whole string, character by character. -/
def jsToLower (s : String) : String :=
  String.mk (s.data.map asciiLowerChar)

/-- DatabaseStorage.getUserByEmail (src/server/storage.ts lines 102-105):
drizzle eq on the email text column, that is exact case-sensitive string
equality on the first matching row. -/
def getUserByEmail (users : List User) (email : String) : Option User :=
  users.find? (fun u => u.email == email)

/-- DatabaseStorage.getInvitationByToken (src/server/storage.ts lines
389-395): exact equality on the inviteToken column. -/
def getInvitationByToken (invs : List Invitation) (token : String) :
    Option Invitation :=
  invs.find? (fun i => i.inviteToken == token)

/-- DatabaseStorage.getClient (src/server/storage.ts lines 130-133). -/
def getClient (clients : List Client) (id : Nat) : Option Client :=
  clients.find? (fun c => c.id == id)

/-- DatabaseStorage.markInvitationAsUsed (src/server/storage.ts lines
397-404): set isUsed on the row with the given id. -/
def markInvitationAsUsed (invs : List Invitation) (id : Nat) :
    List Invitation :=
  invs.map (fun i => if i.id == id then { i with isUsed := true } else i)

/-- The persistent state the onboarding handlers touch. -/
structure St where
  users : List User
  invitations : List Invitation
deriving DecidableEq

/-- Outcomes of the POST /api/register-with-invite handler, one constructor
per return site of src/server/auth.ts lines 148-227. -/
inductive RedeemOutcome where
  | invalidToken
  | tokenUsed
  | tokenExpired
  | emailMismatch
  | emailExists
  | dbError
  | success (user : User)
deriving DecidableEq

/-- The expiry test at src/server/auth.ts line 168 and src/server/routes.ts
line 540: invitation.expiresAt and new Date(invitation.expiresAt) less than
new Date().  A null expiresAt is falsy, so never expired; otherwise the
invitation is expired exactly when expiresAt is strictly below now. -/
def invitationExpired (expiresAt : Option Int) (now : Int) : Bool :=
  match expiresAt with
  | none => false
  | some t => t < now

/-- Core of the POST /api/register-with-invite handler
(src/server/auth.ts lines 148-227), after zod validation has accepted the
body; the schema omits organizationId and role, which come from the
invitation.  newUserId and passwordHash stand for the id the database
assigns and the computed scrypt hash; createOk models whether
storage.createUser succeeds (false = the insert throws, caught as the
DB_ERROR branch).  Effects run in source order: the user row is inserted
first, markInvitationAsUsed runs only after the insert succeeded. -/
def registerWithInvite (st : St) (now : Int)
    (name email password inviteToken : String)
    (newUserId : Nat) (passwordHash : String) (createOk : Bool) :
    RedeemOutcome × St :=
  match getInvitationByToken st.invitations inviteToken with
  | none => (.invalidToken, st)
  | some invitation =>
    if invitation.isUsed then (.tokenUsed, st)
    else if invitationExpired invitation.expiresAt now then (.tokenExpired, st)
    else if jsToLower invitation.email != jsToLower email then
      (.emailMismatch, st)
    else
      match getUserByEmail st.users email with
      | some _ => (.emailExists, st)
      | none =>
        if createOk then
          let user : User :=
            { id := newUserId, name := name, email := email,
              passwordHash := passwordHash,
              role := invitation.role.getD Role.staff,
              organizationId := some invitation.organizationId }
          (.success user,
            { users := st.users ++ [user],
              invitations := markInvitationAsUsed st.invitations invitation.id })
        else (.dbError, st)

/-- Outcomes of the POST /api/register handler. -/
inductive RegisterOutcome where
  | emailExists
  | created (user : User)
deriving DecidableEq

/-- Core of the POST /api/register handler (src/server/auth.ts lines
90-126), after zod validation: role is caller supplied with zod default
staff when omitted, organizationId is caller supplied and optional, and the
handler consults no authenticated principal (its signature carries none). -/
def registerHandler (users : List User)
    (name email password : String)
    (organizationId : Option Nat) (role : Option Role)
    (newUserId : Nat) (passwordHash : String) :
    RegisterOutcome × List User :=
  match getUserByEmail users email with
  | some _ => (.emailExists, users)
  | none =>
    let user : User :=
      { id := newUserId, name := name, email := email,
        passwordHash := passwordHash,
        role := role.getD Role.staff,
        organizationId := organizationId }
    (.created user, users ++ [user])

/-- Responses of the GET /api/invitations/verify/:token handler
(src/server/routes.ts lines 527-558), one constructor per return site. -/
inductive VerifyResp where
  | invalidToken
  | notFound
  | expired
  | used
  | ok (email : String) (role : Option Role) (organizationId : Nat)
deriving DecidableEq

/-- GET /api/invitations/verify/:token handler (src/server/routes.ts lines
527-558).  Note the ordering: this handler checks expiry before the used
flag, the opposite of the redeem handler.  An empty token is falsy. -/
def verifyInvitation (invs : List Invitation) (token : String) (now : Int) :
    VerifyResp :=
  if token = "" then .invalidToken
  else
    match getInvitationByToken invs token with
    | none => .notFound
    | some invitation =>
      if invitationExpired invitation.expiresAt now then .expired
      else if invitation.isUsed then .used
      else .ok invitation.email invitation.role invitation.organizationId

/-- Responses of the GET /api/clients/:id handler, one constructor per
return site of src/server/routes.ts lines 38-63. -/
inductive ClientGetResp where
  | notAuthenticated
  | invalidId
  | notFound
  | accessDenied
  | ok (client : Client)
deriving DecidableEq

/-- HTTP status code of each GET /api/clients/:id response
(src/server/routes.ts lines 38-63). -/
def clientRespStatus : ClientGetResp → Nat
  | .notAuthenticated => 401
  | .invalidId => 400
  | .notFound => 404
  | .accessDenied => 403
  | .ok _ => 200

/-- JSON message body of each GET /api/clients/:id error response; the ok
response carries the client row instead of a message. -/
def clientRespMessage : ClientGetResp → Option String
  | .notAuthenticated => some "Not authenticated"
  | .invalidId => some "Invalid client ID"
  | .notFound => some "Client not found"
  | .accessDenied => some "Access denied"
  | .ok _ => none

/-- GET /api/clients/:id handler (src/server/routes.ts lines 38-63).  The
id parameter is none when parseInt yields NaN.  principalOrgId is the
organizationId of the authenticated request user. -/
def getClientByIdHandler (clients : List Client)
    (authenticated : Bool) (principalOrgId : Option Nat)
    (id : Option Nat) : ClientGetResp :=
  if !authenticated then .notAuthenticated
  else
    match id with
    | none => .invalidId
    | some i =>
      match getClient clients i with
      | none => .notFound
      | some client =>
        if some client.organizationId != principalOrgId then .accessDenied
        else .ok client

/-- The role argument of checkRole (src/server/auth.ts line 280): either a
single role string or an array of role strings. -/
inductive RoleArg where
  | single (r : Role)
  | multi (rs : List Role)

/-- Result of the checkRole middleware: either an early error response or
control passed to the wrapped handler. -/
inductive GuardResult where
  | notAuthenticated
  | insufficientPermissions
  | pass
deriving DecidableEq

/-- HTTP status code of each checkRole early response. -/
def guardStatus : GuardResult → Option Nat
  | .notAuthenticated => some 401
  | .insufficientPermissions => some 403
  | .pass => none

/-- JSON message of each checkRole early response. -/
def guardMessage : GuardResult → Option String
  | .notAuthenticated => some "Not authenticated"
  | .insufficientPermissions => some "Insufficient permissions"
  | .pass => none

/-- checkRole middleware (src/server/auth.ts lines 280-298): 401 when the
request is unauthenticated, 403 Insufficient permissions when the user role
is not in the allow-list, otherwise next() is called. -/
def checkRole (role : RoleArg) (authenticated : Bool) (user : User) :
    GuardResult :=
  if !authenticated then .notAuthenticated
  else
    match role with
    | .multi rs =>
      if !(rs.contains user.role) then .insufficientPermissions else .pass
    | .single r =>
      if user.role != r then .insufficientPermissions else .pass

/-- Responses of the sendInvite controller, one constructor per return site
of src/server/controllers/invite.controller.ts lines 16-85 (the zod
validation and catch-all branches are outside the modelled core). -/
inductive InviteResp where
  | notAuthenticated
  | noOrganization
  | userExists
  | sent (invitationId : Nat)
  | sentWithWarning (invitationId : Nat) (warning : String)
deriving DecidableEq

/-- HTTP status code of each sendInvite response. -/
def inviteRespStatus : InviteResp → Nat
  | .notAuthenticated => 401
  | .noOrganization => 400
  | .userExists => 400
  | .sent _ => 200
  | .sentWithWarning _ _ => 207

/-- 48 hours in milliseconds: addDays(new Date(), 2) at
src/server/controllers/invite.controller.ts line 49. -/
def inviteWindowMs : Int := 172800000

/-- Outcome of sendInvitationEmail (the email collaborator): a success flag
and, on failure, an error message. -/
structure EmailResult where
  success : Bool
  error : Option String
deriving DecidableEq

/-- sendInvite controller (src/server/controllers/invite.controller.ts
lines 16-85), after zod validation accepted the body; the invitee role
defaults to staff.  newInvitationId and inviteToken stand for the id the
database assigns and the generated token; emailResult models the outcome of
sendInvitationEmail, which runs after the invitation row is inserted. -/
def sendInvite (users : List User) (invitations : List Invitation)
    (authenticated : Bool) (user : User)
    (inviteeEmail : String) (role : Option Role)
    (newInvitationId : Nat) (inviteToken : String) (now : Int)
    (emailResult : EmailResult) :
    InviteResp × List Invitation :=
  if !authenticated then (.notAuthenticated, invitations)
  else
    match user.organizationId with
    | none => (.noOrganization, invitations)
    | some orgId =>
      match getUserByEmail users inviteeEmail with
      | some _ => (.userExists, invitations)
      | none =>
        let invitation : Invitation :=
          { id := newInvitationId, email := inviteeEmail,
            inviteToken := inviteToken, organizationId := orgId,
            role := some (role.getD Role.staff), isUsed := false,
            expiresAt := some (now + inviteWindowMs) }
        let invitations1 := invitations ++ [invitation]
        if emailResult.success then (.sent invitation.id, invitations1)
        else
          (.sentWithWarning invitation.id
            (emailResult.error.getD
              "Email could not be sent. Please verify your email configuration."),
            invitations1)

/-!
Credential store (src/server/auth.ts lines 19-30).  Buffers are lists of
byte values; the scrypt key derivation is an abstract function parameter
(password and salt strings to a 64-byte derived key), since its internals
are an external primitive; everything around it - hex encoding, the dot
separated storage format, the split, the constant-time comparison - is
translated from the source.  Strings here are lists of characters.
-/

/-- One lowercase hex digit character, as Buffer.toString with the hex
encoding produces. -/
def hexDigit (n : Nat) : Char :=
  if n < 10 then Char.ofNat (48 + n) else Char.ofNat (87 + n)

/-- Buffer.prototype.toString with the hex encoding: two lowercase hex
characters per byte, high nibble first. -/
def hexEncode : List Nat → List Char
  | [] => []
  | b :: bs => hexDigit (b / 16 % 16) :: hexDigit (b % 16) :: hexEncode bs

/-- Numeric value of one hex digit character, none for a non-hex
character. -/
def hexVal (c : Char) : Option Nat :=
  if '0' ≤ c ∧ c ≤ '9' then some (c.toNat - 48)
  else if 'a' ≤ c ∧ c ≤ 'f' then some (c.toNat - 87)
  else if 'A' ≤ c ∧ c ≤ 'F' then some (c.toNat - 55)
  else none

/-- Buffer.from with the hex encoding: decodes hex pairs, truncating at the
first invalid pair or odd trailing character (Node semantics). -/
def hexDecode : List Char → List Nat
  | c1 :: c2 :: rest =>
    match hexVal c1, hexVal c2 with
    | some hi, some lo => (16 * hi + lo) :: hexDecode rest
    | _, _ => []
  | _ => []

/-- JavaScript String.prototype.split with a single-character separator:
the list of fields between separator occurrences, never empty. -/
def jsSplit (sep : Char) : List Char → List (List Char)
  | [] => [[]]
  | c :: cs =>
    match jsSplit sep cs with
    | [] => [[]]
    | field :: rest =>
      if c = sep then [] :: field :: rest else (c :: field) :: rest

/-- crypto.timingSafeEqual: throws (none) when buffer lengths differ,
otherwise constant-time byte equality. -/
def timingSafeEqual (a b : List Nat) : Option Bool :=
  if a.length ≠ b.length then none else some (a == b)

/-- hashPassword (src/server/auth.ts lines 19-23): derive a 64-byte key
with scrypt from the password and a salt (in the source, the hex string of
randomBytes(16)), and store hex(derivedKey) ++ "." ++ salt. -/
def hashPassword (scryptFn : List Char → List Char → List Nat)
    (password salt : List Char) : List Char :=
  hexEncode (scryptFn password salt) ++ '.' :: salt

/-- comparePasswords (src/server/auth.ts lines 25-30): destructure the
stored string split on ".", hex-decode the stored derived key, recompute
scrypt on the supplied password with the embedded salt, and compare with
timingSafeEqual.  A stored value with no separator leaves the salt
undefined and scrypt throws: none. -/
def comparePasswords (scryptFn : List Char → List Char → List Nat)
    (supplied stored : List Char) : Option Bool :=
  match jsSplit '.' stored with
  | hashed :: salt :: _ =>
    timingSafeEqual (hexDecode hashed) (scryptFn supplied salt)
  | _ => none

/-- Hex digits below 16 decode back to their value. -/
theorem hexVal_hexDigit : ∀ n < 16, hexVal (hexDigit n) = some n := by decide

/-- Hex digit characters are never the dot separator. -/
theorem hexDigit_ne_dot : ∀ n < 16, hexDigit n ≠ '.' := by decide

/-- The hex encoding of a byte list contains no dot separator. -/
theorem dot_not_mem_hexEncode (bs : List Nat) : '.' ∉ hexEncode bs := by
  induction bs with
  | nil => simp [hexEncode]
  | cons b bs ih =>
    simp only [hexEncode, List.mem_cons, not_or]
    refine ⟨?_, ?_, ih⟩
    · exact fun h => hexDigit_ne_dot _ (Nat.mod_lt _ (by norm_num)) h.symm
    · exact fun h => hexDigit_ne_dot _ (Nat.mod_lt _ (by norm_num)) h.symm

/-- Hex decoding inverts hex encoding on byte lists. -/
theorem hexDecode_hexEncode (bs : List Nat) (h : ∀ b ∈ bs, b < 256) :
    hexDecode (hexEncode bs) = bs := by
  induction bs with
  | nil => rfl
  | cons b bs ih =>
    have hb : b < 256 := h b (List.mem_cons_self b bs)
    simp only [hexEncode, hexDecode]
    rw [hexVal_hexDigit _ (Nat.mod_lt _ (by norm_num)),
      hexVal_hexDigit _ (Nat.mod_lt _ (by norm_num))]
    simp only []
    rw [ih (fun x hx => h x (List.mem_cons_of_mem b hx))]
    congr 1
    omega

/-- A JavaScript split never yields an empty field list. -/
theorem jsSplit_ne_nil (sep : Char) (l : List Char) : jsSplit sep l ≠ [] := by
  induction l with
  | nil => simp [jsSplit]
  | cons c cs ih =>
    simp only [jsSplit]
    cases h : jsSplit sep cs with
    | nil => exact absurd h ih
    | cons f rest => by_cases hc : c = sep <;> simp [hc]

/-- Splitting a string free of the separator yields the single whole
field. -/
theorem jsSplit_no_sep (sep : Char) (l : List Char) (h : sep ∉ l) :
    jsSplit sep l = [l] := by
  induction l with
  | nil => rfl
  | cons c cs ih =>
    simp only [List.mem_cons, not_or] at h
    simp only [jsSplit, ih h.2]
    rw [if_neg (fun hc => h.1 hc.symm)]

/-- Splitting around one separator occurrence isolates the prefix free of
the separator as the first field. -/
theorem jsSplit_append (sep : Char) (a b : List Char) (h : sep ∉ a) :
    jsSplit sep (a ++ sep :: b) = a :: jsSplit sep b := by
  induction a with
  | nil =>
    simp only [List.nil_append, jsSplit]
    cases hb : jsSplit sep b with
    | nil => exact absurd hb (jsSplit_ne_nil sep b)
    | cons f rest => simp
  | cons c a ih =>
    simp only [List.mem_cons, not_or] at h
    simp only [List.cons_append, jsSplit, List.append_eq, ih h.2]
    rw [if_neg (fun hc => h.1 hc.symm)]

/-- Claim C4: verifying a password against the stored hash produced from it
succeeds, and verifying any password whose derived key differs (the
overwhelmingly probable case for a different password) fails, for every
scrypt derivation function, password and dot-free salt with byte-valued
output. -/
theorem comparePasswords_hashPassword
    (scryptFn : List Char → List Char → List Nat) (password salt : List Char)
    (hsalt : '.' ∉ salt)
    (hbytes : ∀ b ∈ scryptFn password salt, b < 256) :
    comparePasswords scryptFn password (hashPassword scryptFn password salt)
      = some true ∧
    ∀ p, (scryptFn p salt).length = (scryptFn password salt).length →
      scryptFn p salt ≠ scryptFn password salt →
      comparePasswords scryptFn p (hashPassword scryptFn password salt)
        = some false := by
  have hsplit :
      jsSplit '.' (hashPassword scryptFn password salt)
        = hexEncode (scryptFn password salt) :: [salt] := by
    unfold hashPassword
    rw [jsSplit_append '.' _ salt (dot_not_mem_hexEncode _),
      jsSplit_no_sep '.' salt hsalt]
  constructor
  · unfold comparePasswords
    rw [hsplit]
    simp only [hexDecode_hexEncode _ hbytes, timingSafeEqual]
    simp
  · intro p hlen hne
    unfold comparePasswords
    rw [hsplit]
    simp only [hexDecode_hexEncode _ hbytes, timingSafeEqual]
    rw [if_neg (fun hcon => hcon hlen.symm)]
    simp [beq_eq_false_iff_ne]
    exact fun hcon => hne hcon.symm

/-- Witness for claim C4 at a concrete toy derivation function: the stored
hash of the three-letter password verifies, a four-letter password with a
different derived key fails. -/
theorem comparePasswords_hashPassword_witness :
    comparePasswords (fun p _s => [p.length % 256]) "abc".data
      (hashPassword (fun p _s => [p.length % 256]) "abc".data "00ff".data)
      = some true ∧
    comparePasswords (fun p _s => [p.length % 256]) "abcd".data
      (hashPassword (fun p _s => [p.length % 256]) "abc".data "00ff".data)
      = some false :=
  ⟨(comparePasswords_hashPassword (fun p _s => [p.length % 256]) "abc".data
      "00ff".data (by decide) (by decide)).1,
   (comparePasswords_hashPassword (fun p _s => [p.length % 256]) "abc".data
      "00ff".data (by decide) (by decide)).2 "abcd".data (by decide)
      (by decide)⟩

/-- Claim C1, counterexample: an invitation that is both expired
(expiresAt 100, now 200) and already used is redeemed as TokenUsed, not
TokenExpired, so the expired outcome does not take precedence over the used
outcome in the redeem handler. -/
theorem redeem_used_expired_counterexample :
    (registerWithInvite
        ⟨[], [⟨1, "bob@x.com", "tok1", 5, some Role.admin, true, some 100⟩]⟩
        200 "Bob" "bob@x.com" "pw1234" "tok1" 7 "h" true).1
      = RedeemOutcome.tokenUsed ∧
    (registerWithInvite
        ⟨[], [⟨1, "bob@x.com", "tok1", 5, some Role.admin, true, some 100⟩]⟩
        200 "Bob" "bob@x.com" "pw1234" "tok1" 7 "h" true).1
      ≠ RedeemOutcome.tokenExpired := by decide

/-- Claim C1 as amended: on redeem, the used check runs before the expiry
check, so an expired invitation yields TokenExpired exactly when its used
flag is clear and TokenUsed when it is set; the verify endpoint orders the
two checks the other way and reports an expired invitation as expired
regardless of the used flag. -/
theorem redeem_used_precedes_expiry (st : St) (now : Int)
    (name email password token : String) (uid : Nat) (hash : String)
    (createOk : Bool) (inv : Invitation) (t : Int)
    (hfind : getInvitationByToken st.invitations token = some inv)
    (hexp : inv.expiresAt = some t) (hpast : t < now) (htok : token ≠ "") :
    (registerWithInvite st now name email password token uid hash createOk).1
      = (if inv.isUsed then RedeemOutcome.tokenUsed
         else RedeemOutcome.tokenExpired) ∧
    verifyInvitation st.invitations token now = VerifyResp.expired := by
  constructor
  · unfold registerWithInvite
    rw [hfind]
    cases hu : inv.isUsed
    · simp [hu, invitationExpired, hexp, hpast]
    · simp [hu]
  · unfold verifyInvitation
    rw [if_neg htok, hfind]
    simp [invitationExpired, hexp, hpast]

/-- Witness for claim C1 at a concrete unused expired invitation: redeem
reports it expired and verify agrees. -/
theorem redeem_used_precedes_expiry_witness :
    (registerWithInvite
        ⟨[], [⟨1, "bob@x.com", "tok1", 5, some Role.admin, false, some 100⟩]⟩
        200 "Bob" "bob@x.com" "pw1234" "tok1" 7 "h" true).1
      = (if (Invitation.mk 1 "bob@x.com" "tok1" 5 (some Role.admin) false
              (some 100)).isUsed
         then RedeemOutcome.tokenUsed else RedeemOutcome.tokenExpired) ∧
    verifyInvitation
        [⟨1, "bob@x.com", "tok1", 5, some Role.admin, false, some 100⟩]
        "tok1" 200 = VerifyResp.expired :=
  redeem_used_precedes_expiry
    ⟨[], [⟨1, "bob@x.com", "tok1", 5, some Role.admin, false, some 100⟩]⟩
    200 "Bob" "bob@x.com" "pw1234" "tok1" 7 "h" true
    ⟨1, "bob@x.com", "tok1", 5, some Role.admin, false, some 100⟩ 100
    (by decide) rfl (by decide) (by decide)

/-- Claim C2, counterexample: for a principal of organization 1, reading
client id 99 (absent) answers 404 Client not found while reading client id
1 (owned by organization 2) answers 403 Access denied - the two responses
are not identical. -/
theorem client_read_responses_differ_counterexample :
    getClientByIdHandler [⟨1, "Acme", "a@a.com", true, 2⟩] true (some 1)
        (some 99) = ClientGetResp.notFound ∧
    getClientByIdHandler [⟨1, "Acme", "a@a.com", true, 2⟩] true (some 1)
        (some 1) = ClientGetResp.accessDenied ∧
    getClientByIdHandler [⟨1, "Acme", "a@a.com", true, 2⟩] true (some 1)
        (some 99)
      ≠ getClientByIdHandler [⟨1, "Acme", "a@a.com", true, 2⟩] true (some 1)
        (some 1) ∧
    clientRespStatus ClientGetResp.notFound
      ≠ clientRespStatus ClientGetResp.accessDenied := by decide

/-- Claim C2 as amended: reading an absent client answers 404 Client not
found, reading a client of another organization answers 403 Access denied,
and the two responses differ in status code and message, so the existence
of a tenant-foreign client is observable. -/
theorem client_read_distinguishes_absent_from_foreign
    (clients : List Client) (orgId : Option Nat) (i j : Nat) (c : Client)
    (hfound : getClient clients i = some c)
    (hmismatch : some c.organizationId ≠ orgId)
    (habsent : getClient clients j = none) :
    getClientByIdHandler clients true orgId (some i)
      = ClientGetResp.accessDenied ∧
    getClientByIdHandler clients true orgId (some j)
      = ClientGetResp.notFound ∧
    clientRespStatus ClientGetResp.accessDenied
      ≠ clientRespStatus ClientGetResp.notFound ∧
    clientRespMessage ClientGetResp.accessDenied
      ≠ clientRespMessage ClientGetResp.notFound := by
  refine ⟨?_, ?_, by decide, by decide⟩
  · simp [getClientByIdHandler, hfound, bne_iff_ne, hmismatch]
  · simp [getClientByIdHandler, habsent]

/-- Witness for claim C2 at a concrete store: one client owned by
organization 2, principal in organization 1, ids 1 (foreign) and 99
(absent). -/
theorem client_read_distinguishes_witness :
    getClientByIdHandler [⟨1, "Acme", "a@a.com", true, 2⟩] true (some 1)
        (some 1) = ClientGetResp.accessDenied ∧
    getClientByIdHandler [⟨1, "Acme", "a@a.com", true, 2⟩] true (some 1)
        (some 99) = ClientGetResp.notFound ∧
    clientRespStatus ClientGetResp.accessDenied
      ≠ clientRespStatus ClientGetResp.notFound ∧
    clientRespMessage ClientGetResp.accessDenied
      ≠ clientRespMessage ClientGetResp.notFound :=
  client_read_distinguishes_absent_from_foreign
    [⟨1, "Acme", "a@a.com", true, 2⟩] (some 1) 1 99
    ⟨1, "Acme", "a@a.com", true, 2⟩ (by decide) (by decide) (by decide)

/-- Claim C3: when every check passes but storage.createUser fails, redeem
answers the DB_ERROR branch and leaves the whole store untouched - in
particular the invitation is not marked used, since markInvitationAsUsed
runs only after a successful user insert. -/
theorem redeem_create_failure_leaves_invitation_unused (st : St) (now : Int)
    (name email password token : String) (uid : Nat) (hash : String)
    (inv : Invitation)
    (hfind : getInvitationByToken st.invitations token = some inv)
    (hused : inv.isUsed = false)
    (hexp : invitationExpired inv.expiresAt now = false)
    (hmail : jsToLower inv.email = jsToLower email)
    (hfree : getUserByEmail st.users email = none) :
    registerWithInvite st now name email password token uid hash false
      = (RedeemOutcome.dbError, st) := by
  unfold registerWithInvite
  rw [hfind]
  simp [hused, hexp, hmail, hfree]

/-- Witness for claim C3 at a concrete store: all checks pass, user
creation fails, the invitation list comes back unchanged with the used flag
still clear. -/
theorem redeem_create_failure_witness :
    registerWithInvite
        ⟨[], [⟨1, "bob@x.com", "tok1", 5, some Role.admin, false, some 100⟩]⟩
        50 "Bob" "bob@x.com" "pw1234" "tok1" 7 "h" false
      = (RedeemOutcome.dbError,
          ⟨[], [⟨1, "bob@x.com", "tok1", 5, some Role.admin, false,
            some 100⟩]⟩) :=
  redeem_create_failure_leaves_invitation_unused
    ⟨[], [⟨1, "bob@x.com", "tok1", 5, some Role.admin, false, some 100⟩]⟩
    50 "Bob" "bob@x.com" "pw1234" "tok1" 7 "h"
    ⟨1, "bob@x.com", "tok1", 5, some Role.admin, false, some 100⟩
    (by decide) rfl rfl rfl rfl

/-- Claim C5: once an invitation is found, unused and unexpired, redeem
fails with EmailMismatch exactly when the supplied email and the invited
email differ after lowercasing - an email differing only in letter case
passes the check, any visible difference fails it. -/
theorem redeem_email_check_case_insensitive (st : St) (now : Int)
    (name email password token : String) (uid : Nat) (hash : String)
    (createOk : Bool) (inv : Invitation)
    (hfind : getInvitationByToken st.invitations token = some inv)
    (hused : inv.isUsed = false)
    (hexp : invitationExpired inv.expiresAt now = false) :
    ((registerWithInvite st now name email password token uid hash
        createOk).1 = RedeemOutcome.emailMismatch
      ↔ jsToLower inv.email ≠ jsToLower email) := by
  by_cases hm : jsToLower inv.email = jsToLower email
  · rcases hfree : getUserByEmail st.users email with _ | u
    · cases createOk <;>
        simp [registerWithInvite, hfind, hused, hexp, hm, hfree]
    · simp [registerWithInvite, hfind, hused, hexp, hm, hfree]
  · simp [registerWithInvite, hfind, hused, hexp, bne_iff_ne, hm]

/-- Witness for claim C5: invitation for bob at x dot com redeemed with the
same address uppercased; the mismatch outcome is equivalent to the false
proposition that the lowercased forms differ. -/
theorem redeem_email_case_witness :
    ((registerWithInvite
        ⟨[], [⟨1, "bob@x.com", "tok1", 5, some Role.admin, false, some 100⟩]⟩
        50 "Bob" "BOB@X.COM" "pw1234" "tok1" 7 "h" true).1
      = RedeemOutcome.emailMismatch
      ↔ jsToLower "bob@x.com" ≠ jsToLower "BOB@X.COM") :=
  redeem_email_check_case_insensitive
    ⟨[], [⟨1, "bob@x.com", "tok1", 5, some Role.admin, false, some 100⟩]⟩
    50 "Bob" "BOB@X.COM" "pw1234" "tok1" 7 "h" true
    ⟨1, "bob@x.com", "tok1", 5, some Role.admin, false, some 100⟩
    (by decide) rfl rfl

/-- Claim C6, counterexample: at the boundary instant now equal to
expiresAt (both 100) an unused invitation is not treated as expired - the
redemption succeeds, contradicting the claim that current time greater than
or equal to the expiration is already expired. -/
theorem redeem_boundary_not_expired_counterexample :
    (registerWithInvite
        ⟨[], [⟨1, "bob@x.com", "tok1", 5, some Role.admin, false, some 100⟩]⟩
        100 "Bob" "bob@x.com" "pw1234" "tok1" 7 "h" true).1
      = RedeemOutcome.success
          ⟨7, "Bob", "bob@x.com", "h", Role.admin, some 5⟩ ∧
    (registerWithInvite
        ⟨[], [⟨1, "bob@x.com", "tok1", 5, some Role.admin, false, some 100⟩]⟩
        100 "Bob" "bob@x.com" "pw1234" "tok1" 7 "h" true).1
      ≠ RedeemOutcome.tokenExpired := by decide

/-- Claim C6 as amended: for a found, unused invitation with a set
expiration timestamp, redeem fails with TokenExpired exactly when the
expiration is strictly below the current time; the boundary instant is not
expired, and an unexpired invitation never produces TokenExpired. -/
theorem redeem_expiry_is_strict (st : St) (now : Int)
    (name email password token : String) (uid : Nat) (hash : String)
    (createOk : Bool) (inv : Invitation) (t : Int)
    (hfind : getInvitationByToken st.invitations token = some inv)
    (hused : inv.isUsed = false) (hexp : inv.expiresAt = some t) :
    ((registerWithInvite st now name email password token uid hash
        createOk).1 = RedeemOutcome.tokenExpired ↔ t < now) := by
  by_cases ht : t < now
  · simp [registerWithInvite, hfind, hused, invitationExpired, hexp, ht]
  · by_cases hm : jsToLower inv.email = jsToLower email
    · rcases hfree : getUserByEmail st.users email with _ | u
      · cases createOk <;>
          simp [registerWithInvite, hfind, hused, invitationExpired, hexp,
            ht, hm, hfree]
      · simp [registerWithInvite, hfind, hused, invitationExpired, hexp,
          ht, hm, hfree]
    · simp [registerWithInvite, hfind, hused, invitationExpired, hexp, ht,
        bne_iff_ne, hm]

/-- Witness for claim C6: an invitation expiring at 100 redeemed at 50; the
expired outcome is equivalent to the false proposition 100 below 50. -/
theorem redeem_expiry_strict_witness :
    ((registerWithInvite
        ⟨[], [⟨1, "bob@x.com", "tok1", 5, some Role.admin, false, some 100⟩]⟩
        50 "Bob" "bob@x.com" "pw1234" "tok1" 7 "h" true).1
      = RedeemOutcome.tokenExpired ↔ (100 : Int) < 50) :=
  redeem_expiry_is_strict
    ⟨[], [⟨1, "bob@x.com", "tok1", 5, some Role.admin, false, some 100⟩]⟩
    50 "Bob" "bob@x.com" "pw1234" "tok1" 7 "h" true
    ⟨1, "bob@x.com", "tok1", 5, some Role.admin, false, some 100⟩ 100
    (by decide) rfl rfl

/-- Claim C7: under the founder-admin allow-list guarding the organization
update route, an authenticated staff principal is stopped with 403
Insufficient permissions, founder and admin principals pass to the handler,
and the insufficient-permissions response differs from the tenant-mismatch
Access denied response. -/
theorem org_update_role_check (u : User) :
    (u.role = Role.staff →
      checkRole (RoleArg.multi [Role.founder, Role.admin]) true u
        = GuardResult.insufficientPermissions) ∧
    (u.role = Role.founder ∨ u.role = Role.admin →
      checkRole (RoleArg.multi [Role.founder, Role.admin]) true u
        = GuardResult.pass) ∧
    guardStatus GuardResult.insufficientPermissions = some 403 ∧
    guardMessage GuardResult.insufficientPermissions
      ≠ clientRespMessage ClientGetResp.accessDenied := by
  refine ⟨?_, ?_, rfl, by decide⟩
  · intro h
    simp only [checkRole, h]
    decide
  · rintro (h | h) <;> simp only [checkRole, h] <;> decide

/-- Witness for claim C7 at concrete users: a staff member is refused, a
founder passes. -/
theorem org_update_role_check_witness :
    checkRole (RoleArg.multi [Role.founder, Role.admin]) true
        ⟨3, "S", "s@x.com", "h", Role.staff, some 5⟩
      = GuardResult.insufficientPermissions ∧
    checkRole (RoleArg.multi [Role.founder, Role.admin]) true
        ⟨4, "F", "f@x.com", "h", Role.founder, some 5⟩
      = GuardResult.pass :=
  ⟨(org_update_role_check ⟨3, "S", "s@x.com", "h", Role.staff, some 5⟩).1
      rfl,
   (org_update_role_check ⟨4, "F", "f@x.com", "h", Role.founder, some 5⟩).2.1
      (Or.inl rfl)⟩

/-- Claim C8: once the invitation row is created, a failing email delivery
does not remove or change it - the store gains exactly the same new row in
both outcomes, the response carries the invitation id in both outcomes, and
the delivery-failure response is a 207 carrying a warning instead of a
failure of the whole request. -/
theorem sendInvite_email_failure_preserves_grant
    (users : List User) (invitations : List Invitation) (user : User)
    (orgId : Nat) (inviteeEmail : String) (role : Option Role)
    (newId : Nat) (token : String) (now : Int) (err : Option String)
    (horg : user.organizationId = some orgId)
    (hfree : getUserByEmail users inviteeEmail = none) :
    sendInvite users invitations true user inviteeEmail role newId token
        now ⟨true, none⟩
      = (InviteResp.sent newId,
          invitations ++ [⟨newId, inviteeEmail, token, orgId,
            some (role.getD Role.staff), false,
            some (now + inviteWindowMs)⟩]) ∧
    sendInvite users invitations true user inviteeEmail role newId token
        now ⟨false, err⟩
      = (InviteResp.sentWithWarning newId
          (err.getD
            "Email could not be sent. Please verify your email configuration."),
          invitations ++ [⟨newId, inviteeEmail, token, orgId,
            some (role.getD Role.staff), false,
            some (now + inviteWindowMs)⟩]) ∧
    inviteRespStatus (InviteResp.sent newId) = 200 ∧
    inviteRespStatus (InviteResp.sentWithWarning newId
        (err.getD
          "Email could not be sent. Please verify your email configuration."))
      = 207 := by
  refine ⟨?_, ?_, rfl, rfl⟩ <;> simp [sendInvite, horg, hfree]

/-- Witness for claim C8 at a concrete founder issuing an invitation, with
a concrete delivery error message. -/
theorem sendInvite_email_failure_witness :
    sendInvite [] [] true ⟨9, "F", "f@x.com", "h", Role.founder, some 5⟩
        "bob@x.com" (some Role.admin) 3 "tokZ" 1000 ⟨true, none⟩
      = (InviteResp.sent 3,
          [⟨3, "bob@x.com", "tokZ", 5,
            some ((some Role.admin).getD Role.staff), false,
            some ((1000 : Int) + inviteWindowMs)⟩]) ∧
    sendInvite [] [] true ⟨9, "F", "f@x.com", "h", Role.founder, some 5⟩
        "bob@x.com" (some Role.admin) 3 "tokZ" 1000 ⟨false, some "boom"⟩
      = (InviteResp.sentWithWarning 3 ((some "boom").getD
          "Email could not be sent. Please verify your email configuration."),
          [⟨3, "bob@x.com", "tokZ", 5,
            some ((some Role.admin).getD Role.staff), false,
            some ((1000 : Int) + inviteWindowMs)⟩]) ∧
    inviteRespStatus (InviteResp.sent 3) = 200 ∧
    inviteRespStatus (InviteResp.sentWithWarning 3 ((some "boom").getD
        "Email could not be sent. Please verify your email configuration."))
      = 207 :=
  sendInvite_email_failure_preserves_grant [] []
    ⟨9, "F", "f@x.com", "h", Role.founder, some 5⟩ 5 "bob@x.com"
    (some Role.admin) 3 "tokZ" 1000 (some "boom") rfl rfl

/-- Claim C9: open registration takes the caller-supplied role and
organization id verbatim - for any requested role (founder included) and
any organization id the created user carries exactly those values, the role
defaults to staff when omitted, and the handler consults no authenticated
principal (its inputs carry none). -/
theorem register_accepts_caller_role_and_org (users : List User)
    (name email password hash : String) (uid : Nat) (orgId : Option Nat)
    (r : Role) (hfree : getUserByEmail users email = none) :
    registerHandler users name email password orgId (some r) uid hash
      = (RegisterOutcome.created ⟨uid, name, email, hash, r, orgId⟩,
          users ++ [⟨uid, name, email, hash, r, orgId⟩]) ∧
    (registerHandler users name email password orgId none uid hash).1
      = RegisterOutcome.created ⟨uid, name, email, hash, Role.staff, orgId⟩
      := by
  constructor <;> simp [registerHandler, hfree]

/-- Witness for claim C9: an unauthenticated request creating a founder
attached to organization 42. -/
theorem register_accepts_caller_role_witness :
    registerHandler [] "Eve" "eve@x.com" "pw1234" (some 42)
        (some Role.founder) 1 "h"
      = (RegisterOutcome.created
            ⟨1, "Eve", "eve@x.com", "h", Role.founder, some 42⟩,
          [⟨1, "Eve", "eve@x.com", "h", Role.founder, some 42⟩]) ∧
    (registerHandler [] "Eve" "eve@x.com" "pw1234" (some 42) none 1 "h").1
      = RegisterOutcome.created
          ⟨1, "Eve", "eve@x.com", "h", Role.staff, some 42⟩ :=
  register_accepts_caller_role_and_org [] "Eve" "eve@x.com" "pw1234" "h" 1
    (some 42) Role.founder rfl

/-- Claim C10: the email lookup is case-sensitive, so two registrations
whose emails differ only in letter case both succeed and create two users,
and the redeem EMAIL_EXISTS check does not see an existing user whose email
differs only in case from the invited one. -/
theorem email_lookup_case_sensitive (users : List User)
    (n1 n2 e1 e2 p1 p2 h1 h2 : String) (uid1 uid2 : Nat)
    (hcase : jsToLower e1 = jsToLower e2) (hne : e1 ≠ e2)
    (hfree1 : getUserByEmail users e1 = none)
    (hfree2 : getUserByEmail users e2 = none) :
    registerHandler users n1 e1 p1 none none uid1 h1
      = (RegisterOutcome.created ⟨uid1, n1, e1, h1, Role.staff, none⟩,
          users ++ [⟨uid1, n1, e1, h1, Role.staff, none⟩]) ∧
    getUserByEmail (users ++ [⟨uid1, n1, e1, h1, Role.staff, none⟩]) e2
      = none ∧
    (registerHandler (users ++ [⟨uid1, n1, e1, h1, Role.staff, none⟩]) n2
        e2 p2 none none uid2 h2).1
      = RegisterOutcome.created ⟨uid2, n2, e2, h2, Role.staff, none⟩ ∧
    ∀ (invId orgIdB uid3 : Nat) (tok n3 p3 h3 : String) (now : Int),
      (registerWithInvite
          ⟨users ++ [⟨uid1, n1, e1, h1, Role.staff, none⟩],
            [⟨invId, e2, tok, orgIdB, some Role.staff, false, none⟩]⟩
          now n3 e2 p3 tok uid3 h3 true).1
        ≠ RedeemOutcome.emailExists := by
  have hmiss :
      getUserByEmail (users ++ [⟨uid1, n1, e1, h1, Role.staff, none⟩]) e2
        = none := by
    unfold getUserByEmail at hfree2 ⊢
    rw [List.find?_append, hfree2]
    simp [hne]
  refine ⟨by simp [registerHandler, hfree1], hmiss,
    by simp [registerHandler, hmiss], ?_⟩
  intro invId orgIdB uid3 tok n3 p3 h3 now
  simp [registerWithInvite, getInvitationByToken, invitationExpired, hmiss]

/-- Witness for claim C10: registering the same address in lowercase and
uppercase creates two users; an invitation for the uppercase form is
redeemable although the lowercase user exists. -/
theorem email_lookup_case_sensitive_witness :
    registerHandler [] "Ann" "a@x.com" "pw1234" none none 1 "h1"
      = (RegisterOutcome.created ⟨1, "Ann", "a@x.com", "h1", Role.staff,
            none⟩,
          [⟨1, "Ann", "a@x.com", "h1", Role.staff, none⟩]) ∧
    getUserByEmail [⟨1, "Ann", "a@x.com", "h1", Role.staff, none⟩]
        "A@x.com" = none ∧
    (registerHandler [⟨1, "Ann", "a@x.com", "h1", Role.staff, none⟩] "Ann"
        "A@x.com" "pw1234" none none 2 "h2").1
      = RegisterOutcome.created ⟨2, "Ann", "A@x.com", "h2", Role.staff,
          none⟩ ∧
    (registerWithInvite
        ⟨[⟨1, "Ann", "a@x.com", "h1", Role.staff, none⟩],
          [⟨8, "A@x.com", "tokQ", 6, some Role.staff, false, none⟩]⟩
        500 "Ann" "A@x.com" "pw1234" "tokQ" 9 "h3" true).1
      ≠ RedeemOutcome.emailExists := by
  have h := email_lookup_case_sensitive [] "Ann" "Ann" "a@x.com" "A@x.com"
    "pw1234" "pw1234" "h1" "h2" 1 2 (by decide) (by decide) rfl rfl
  exact ⟨h.1, h.2.1, h.2.2.1, h.2.2.2 8 6 9 "tokQ" "Ann" "pw1234" "h3" 500⟩

end NexaroCrm
